import Mathlib

/-!
Verification of the configuration resolution engine of a declarative AWS
infrastructure builder (source files: awsterraform.py, main.py, config.py).

Python strings are modelled as lists of characters (`Str`), YAML argument
trees as the inductive `Value` (null, booleans, numbers, strings, sequences,
mappings with insertion order preserved), and Python dicts as association
lists with first-match lookup and in-place overwrite.  The provisioning
backend (CDKTF resource classes reached through `importlib`) is modelled as
an abstract `Backend` record: a predicate saying which (module, class)
pairs load successfully, and constructors returning resource handles.
-/

namespace TfCdk

/-- Model of a Python `str`: a list of characters. -/
abbrev Str := List Char

/-- Model of Python `str.lower()` (ASCII behaviour). -/
def pyLower (s : Str) : Str := s.map Char.toLower

/-- Model of Python `str.strip()`: drop whitespace at both ends. -/
def pyStrip (s : Str) : Str :=
  ((s.dropWhile Char.isWhitespace).reverse.dropWhile Char.isWhitespace).reverse

/-- Model of Python `str.split(sep)` for a one-character separator:
splits at every occurrence, so the result is always non-empty. -/
def pySplitChar (c : Char) : Str → List Str
  | [] => [[]]
  | x :: xs =>
    if x = c then [] :: pySplitChar c xs
    else
      match pySplitChar c xs with
      | [] => [[x]]
      | g :: gs => (x :: g) :: gs

/-- Model of Python `str.split(sep, 1)` for a one-character separator:
`some (before, after)` splitting at the first occurrence, `none` when the
separator does not occur. -/
def pySplitFirst (c : Char) : Str → Option (Str × Str)
  | [] => none
  | x :: xs =>
    if x = c then some ([], xs)
    else (pySplitFirst c xs).map (fun p => (x :: p.1, p.2))

/-- Model of the Python substring test `pat in hay`. -/
def pyContainsSub (hay pat : Str) : Bool :=
  match hay with
  | [] => pat.isEmpty
  | _ :: rest => pat.isPrefixOf hay || pyContainsSub rest pat

/-- Argument tree occurring in a configuration: the shapes produced by the
YAML loader (scalars, ordered sequences, mappings in insertion order). -/
inductive Value where
  | null
  | bool (b : Bool)
  | num (n : Int)
  | str (s : Str)
  | seq (items : List Value)
  | map (entries : List (Str × Value))

instance : Inhabited Value := ⟨Value.null⟩

/-- Python truthiness of a value, as used by `args.pop("existing", False)`. -/
def truthy : Value → Bool
  | .null => false
  | .bool b => b
  | .num n => n != 0
  | .str s => !s.isEmpty
  | .seq items => !items.isEmpty
  | .map entries => !entries.isEmpty

/-- Dictionary lookup on an association list (Python `d[k]` / `d.get(k)`). -/
def dictGet {α : Type} (d : List (Str × α)) (k : Str) : Option α :=
  match d with
  | [] => none
  | (k1, v) :: rest => if k1 = k then some v else dictGet rest k

/-- Python `k in d`. -/
def dictHasKey {α : Type} (d : List (Str × α)) (k : Str) : Bool :=
  (dictGet d k).isSome

/-- Python `d.pop(k, default)` restricted to the removal effect: the
dictionary without key `k`. -/
def dictRemove {α : Type} (d : List (Str × α)) (k : Str) : List (Str × α) :=
  match d with
  | [] => []
  | (k1, v) :: rest => if k1 = k then dictRemove rest k else (k1, v) :: dictRemove rest k

/-- Python `d.setdefault(k, v)`: insert `(k, v)` at the end when `k` is
absent, leave the dictionary unchanged when `k` is present. -/
def dictSetDefault (d : List (Str × Value)) (k : Str) (v : Value) : List (Str × Value) :=
  if dictHasKey d k then d else d ++ [(k, v)]

/-- Python `d[k] = v`: overwrite in place (keeping the original position)
when the key exists, append otherwise. -/
def dictInsert {α : Type} (d : List (Str × α)) (k : Str) (v : α) : List (Str × α) :=
  match d with
  | [] => [(k, v)]
  | (k1, v1) :: rest =>
    if k1 = k then (k1, v) :: rest else (k1, v1) :: dictInsert rest k v

/-- A materialized resource as seen by the resolver and the export loop:
`attrs` models the attributes reachable by direct property access
(`getattr`), and `getString` models the generic CDKTF attribute accessor
`get_string` used as a fallback. -/
structure Handle where
  attrs : List (Str × Value)
  getString : Str → Value

/-- Attribute access on a handle as performed by `resolve_value`: direct
property access first, the generic `get_string` accessor as a fallback. -/
def handleAttr (h : Handle) (attr : Str) : Value :=
  match dictGet h.attrs attr with
  | some v => v
  | none => h.getString attr

mutual

/-- Model of `resolve_value` (awsterraform.py, lines 42-76): recursively
resolves `secret:` and `ref:` string markers; a `ref:` to a name absent
from `resources` raises `ValueError` (modelled as `Except.error` carrying
the exact message). -/
def resolveValue (v : Value) (resources : List (Str × Handle)) : Except Str Value :=
  match v with
  | .map entries =>
    match resolveEntries entries resources with
    | .ok es => .ok (.map es)
    | .error e => .error e
  | .seq items =>
    match resolveSeq items resources with
    | .ok vs => .ok (.seq vs)
    | .error e => .error e
  | .str s =>
    if "secret:".toList.isPrefixOf s then
      let secretKey := s.drop 7
      .ok (.str ("$\x7b".toList ++ secretKey ++ "\x7d".toList))
    else if "ref:".toList.isPrefixOf s then
      let refText := s.drop 4
      let parsed :=
        match pySplitFirst '.' refText with
        | some p => p
        | none => (refText, "id".toList)
      match dictGet resources parsed.1 with
      | none =>
        .error ("Referenced resource \x27".toList ++ parsed.1 ++ "\x27 not found.".toList)
      | some h => .ok (handleAttr h parsed.2)
    else .ok (.str s)
  | other => .ok other

/-- Elementwise resolution of a list (the list comprehension in
`resolve_value`); the first raised error aborts the comprehension. -/
def resolveSeq (l : List Value) (resources : List (Str × Handle)) :
    Except Str (List Value) :=
  match l with
  | [] => .ok []
  | v :: rest =>
    match resolveValue v resources with
    | .error e => .error e
    | .ok vr =>
      match resolveSeq rest resources with
      | .error e => .error e
      | .ok restr => .ok (vr :: restr)

/-- Valuewise resolution of a mapping (the dict comprehensions in
`resolve_value` and `resolve_args`); keys are left unchanged. -/
def resolveEntries (l : List (Str × Value)) (resources : List (Str × Handle)) :
    Except Str (List (Str × Value)) :=
  match l with
  | [] => .ok []
  | (k, v) :: rest =>
    match resolveValue v resources with
    | .error e => .error e
    | .ok vr =>
      match resolveEntries rest resources with
      | .error e => .error e
      | .ok restr => .ok ((k, vr) :: restr)

end

/-- Model of `AWSResourceBuilder.resolve_args`: resolve every value of the
argument dictionary. -/
def resolveArgs (args : List (Str × Value)) (resources : List (Str × Handle)) :
    Except Str (List (Str × Value)) :=
  resolveEntries args resources

/-- The fixed region-to-abbreviation table `AWS_REGION_ABBREVIATIONS`. -/
def awsRegionAbbreviations : List (Str × Str) :=
  [("us-east-1".toList, "use1".toList),
   ("us-east-2".toList, "use2".toList),
   ("us-west-1".toList, "usw1".toList),
   ("us-west-2".toList, "usw2".toList),
   ("af-south-1".toList, "afs1".toList),
   ("ap-east-1".toList, "ape1".toList),
   ("ap-south-1".toList, "aps1".toList),
   ("ap-northeast-1".toList, "apne1".toList),
   ("ap-northeast-2".toList, "apne2".toList),
   ("ap-northeast-3".toList, "apne3".toList),
   ("ap-southeast-1".toList, "apse1".toList),
   ("ap-southeast-2".toList, "apse2".toList),
   ("ca-central-1".toList, "cac1".toList),
   ("eu-central-1".toList, "euc1".toList),
   ("eu-west-1".toList, "euw1".toList),
   ("eu-west-2".toList, "euw2".toList),
   ("eu-west-3".toList, "euw3".toList),
   ("eu-north-1".toList, "eun1".toList),
   ("eu-south-1".toList, "eus1".toList),
   ("me-south-1".toList, "mes1".toList),
   ("sa-east-1".toList, "sae1".toList),
   ("us-gov-east-1".toList, "usge1".toList),
   ("us-gov-west-1".toList, "usgw1".toList),
   ("cn-north-1".toList, "cnn1".toList),
   ("cn-northwest-1".toList, "cnnw1".toList)]

/-- A single resource declaration from the configuration (one entry of
`aws_resources`): `name`, `type`, `args`, optional `custom_name`. -/
structure Decl where
  name : Str
  type : Str
  args : List (Str × Value)
  customName : Option Str

/-- The builder's configuration dictionary, restricted to the keys the
builder reads; `Option` fields model `config.get(key, default)` with the
defaults applied at the use sites, exactly as in the source. -/
structure BuilderConfig where
  team : Option Str
  service : Option Str
  environment : Option Str
  region : Option Str
  tags : Option (List (Str × Value))
  awsResources : List Decl

/-- Model of `AWSResourceBuilder.get_abbreviation`: table lookup on the
lowercased region, falling back to the first hyphen-delimited segment of
the region string, lowercased. -/
def getAbbreviation (region : Str) : Str :=
  match dictGet awsRegionAbbreviations (pyLower region) with
  | some a => a
  | none => pyLower ((pySplitChar '-' region).headD [])

/-- Model of `AWSResourceBuilder.generate_resource_name`: compose
team-service-environment-regionAbbr-baseName and lowercase the whole. -/
def generateResourceName (cfg : BuilderConfig) (baseName : Str) : Str :=
  let team := pyLower (pyStrip (cfg.team.getD "team".toList))
  let service := pyLower (pyStrip (cfg.service.getD "svc".toList))
  let env := pyLower (pyStrip (cfg.environment.getD "dev".toList))
  let regAbbr := getAbbreviation (cfg.region.getD "us-east-1".toList)
  pyLower (team ++ "-".toList ++ service ++ "-".toList ++ env ++ "-".toList ++
           regAbbr ++ "-".toList ++ baseName)

/-- The fixed `service_map` translation table of `_map_resource_type`. -/
def serviceMap : List (Str × Str) :=
  [("vpc".toList, "vpc".toList),
   ("ec2".toList, "instance".toList),
   ("s3".toList, "s3_bucket".toList),
   ("s3_bucket".toList, "s3_bucket".toList),
   ("iam".toList, "iam_role".toList),
   ("lambda".toList, "lambda_function".toList),
   ("apigateway".toList, "api_gateway_rest_api".toList),
   ("apigatewayv2".toList, "apigatewayv2_api".toList),
   ("dynamodb".toList, "dynamodb_table".toList),
   ("cloudfront".toList, "cloudfront_distribution".toList),
   ("cloudwatch".toList, "cloudwatch_dashboard".toList),
   ("cognito".toList, "cognito_user_pool".toList),
   ("sqs".toList, "sqs_queue".toList),
   ("ssm".toList, "ssm_parameter".toList),
   ("bedrock".toList, "bedrock_agent".toList)]

/-- Model of `AWSResourceBuilder._map_resource_type`: split the type tag on
the first dot (defaulting the service to "ec2" when no dot is present),
translate the lowercased service through `serviceMap` with the lowercased
service itself as fallback, pass the class name through unchanged. -/
def mapResourceType (resourceType : Str) : Str × Str :=
  let parsed :=
    match pySplitFirst '.' resourceType with
    | some p => p
    | none => ("ec2".toList, resourceType)
  let moduleName :=
    match dictGet serviceMap (pyLower parsed.1) with
    | some m => m
    | none => pyLower parsed.1
  (moduleName, parsed.2)

/-- The fixed `tag_supporting_resources` list of
`_apply_common_parameters`. -/
def tagSupportingResources : List Str :=
  ["s3_bucket.s3bucket".toList,
   "lambda_function.lambdafunction".toList,
   "dynamodb_table.dynamodbtable".toList,
   "api_gateway_rest_api.apigatewayrestapi".toList,
   "cognito_user_pool.cognitouserpool".toList,
   "sqs_queue.sqsqueue".toList,
   "apigatewayv2_api.apigatewayv2api".toList,
   "ssm_parameter.ssmparameter".toList,
   "iam_role.iamrole".toList,
   "cloudfront_distribution.cloudfrontdistribution".toList]

/-- The substring-based tag-capability test of `_apply_common_parameters`:
some entry of `tagSupportingResources`, lowercased, occurs inside the
lowercased resource type. -/
def supportsTags (resourceType : Str) : Bool :=
  tagSupportingResources.any (fun t => pyContainsSub (pyLower resourceType) (pyLower t))

/-- Model of `AWSResourceBuilder._apply_common_parameters`: when the type
passes the tag-capability test and the configuration declares non-empty
tags, `setdefault` the `tags` key of the resolved arguments. -/
def applyCommonParameters (cfg : BuilderConfig) (resolvedArgs : List (Str × Value))
    (resourceType : Str) : List (Str × Value) :=
  if supportsTags resourceType then
    let resourceTags := cfg.tags.getD []
    if resourceTags.isEmpty then resolvedArgs
    else dictSetDefault resolvedArgs "tags".toList (.map resourceTags)
  else resolvedArgs

/-- The provisioning backend (CDKTF modules reached through `importlib`):
`avail m c` says whether module `imports.aws.m` imports and exposes class
`c` (its negation is the ImportError/AttributeError case), `availData`
likewise for the data-source variant, and `create`/`createData` are the
constructors, taking module, class, the construct identifier passed as the
second positional argument, and the keyword arguments. -/
structure Backend where
  avail : Str → Str → Bool
  availData : Str → Str → Bool
  create : Str → Str → Str → List (Str × Value) → Handle
  createData : Str → Str → Str → List (Str × Value) → Handle

/-- Record of one materialization call made by `build`: the backend
addressing, the identifier passed as the constructor's second positional
argument, the final keyword arguments, whether the data-source path was
taken, and the `terraform_name` that appears in the log message. -/
structure BackendCall where
  moduleName : Str
  className : Str
  constructId : Str
  callArgs : List (Str × Value)
  isData : Bool
  loggedName : Str

/-- The error message logged by `build`'s per-declaration except clause. -/
def errCreating (name ty : Str) : Str :=
  "Error creating resource \x27".toList ++ name ++ "\x27 of type \x27".toList ++
    ty ++ "\x27".toList

/-- Outcome of the body of `build`'s loop for one declaration once the
arguments have resolved: either a materialization (with the call made and
the handle obtained) or a skip with the logged error message. -/
inductive StepOutcome where
  | made (call : BackendCall) (h : Handle)
  | skipped (err : Str)

/-- The `terraform_name` computed by `build`: `custom_name` when truthy
(Python `custom_name if custom_name else ...`), the generated name
otherwise. -/
def terraformNameOf (cfg : BuilderConfig) (d : Decl) : Str :=
  match d.customName with
  | some s => if s.isEmpty then generateResourceName cfg d.name else s
  | none => generateResourceName cfg d.name

/-- One iteration of `build`'s loop (awsterraform.py, lines 148-190).
`resolve_args` runs outside the try block and `ValueError` is not in the
except tuple, so a resolution error escapes as `Except.error`; import or
attribute failures inside the try block produce `StepOutcome.skipped`. -/
def processDecl (be : Backend) (cfg : BuilderConfig) (resources : List (Str × Handle))
    (d : Decl) : Except Str StepOutcome :=
  let args := dictRemove d.args "existing".toList
  let isExisting := truthy ((dictGet d.args "existing".toList).getD (.bool false))
  match resolveArgs args resources with
  | .error e => .error e
  | .ok resolved =>
    let mapped := mapResourceType d.type
    if be.avail mapped.1 mapped.2 then
      let tfName := terraformNameOf cfg d
      let finalArgs := applyCommonParameters cfg resolved d.type
      if isExisting then
        if be.availData mapped.1 mapped.2 then
          .ok (.made
            ⟨mapped.1 ++ "_data".toList, mapped.2 ++ "Data".toList, d.name,
             finalArgs, true, tfName⟩
            (be.createData mapped.1 mapped.2 d.name finalArgs))
        else .ok (.skipped (errCreating d.name d.type))
      else
        .ok (.made ⟨mapped.1, mapped.2, d.name, finalArgs, false, tfName⟩
          (be.create mapped.1 mapped.2 d.name finalArgs))
    else .ok (.skipped (errCreating d.name d.type))

/-- Mutable state of `build`'s loop: the resource registry
`self.resources`, the materialization calls made so far, and the logged
per-declaration errors. -/
structure BuildState where
  resources : List (Str × Handle)
  calls : List BackendCall
  errors : List Str

/-- The declaration loop of `build`: declarations processed strictly in
document order; a skipped declaration logs its error and the loop
continues; an uncaught resolution error aborts the whole loop. -/
def buildDecls (be : Backend) (cfg : BuilderConfig) :
    List Decl → BuildState → Except Str BuildState
  | [], st => .ok st
  | d :: rest, st =>
    match processDecl be cfg st.resources d with
    | .error e => .error e
    | .ok (.skipped e) =>
      buildDecls be cfg rest ⟨st.resources, st.calls, st.errors ++ [e]⟩
    | .ok (.made call h) =>
      buildDecls be cfg rest
        ⟨dictInsert st.resources d.name h, st.calls ++ [call], st.errors⟩

/-- The export loop of `build`: for every registry entry, in order, emit
the output `output_<name>` from the handle's `id` attribute; a handle
without a directly accessible `id` is logged and skipped. -/
def exportOutputs : List (Str × Handle) → List Str × List Str
  | [] => ([], [])
  | (name, h) :: rest =>
    let tail := exportOutputs rest
    match dictGet h.attrs "id".toList with
    | some _ => (("output_".toList ++ name) :: tail.1, tail.2)
    | none =>
      (tail.1, ("Failed to export resource \x27".toList ++ name ++ "\x27".toList) :: tail.2)

/-- Final observable result of `build`: the registry, the materialization
calls, the logged errors (per-declaration errors then export errors), and
the emitted output names. -/
structure BuildResult where
  resources : List (Str × Handle)
  calls : List BackendCall
  errors : List Str
  outputs : List Str

/-- Model of `AWSResourceBuilder.build` (awsterraform.py, lines 144-197):
the declaration loop over `aws_resources` followed by the export loop. -/
def buildModel (be : Backend) (cfg : BuilderConfig) : Except Str BuildResult :=
  match buildDecls be cfg cfg.awsResources ⟨[], [], []⟩ with
  | .error e => .error e
  | .ok st =>
    let exported := exportOutputs st.resources
    .ok ⟨st.resources, st.calls, st.errors ++ exported.2, exported.1⟩

/-- The `required_keys` list of `load_config` (main.py). -/
def requiredKeys : List Str :=
  ["team".toList, "service".toList, "environment".toList, "region".toList]

/-- First required key missing from the configuration document, scanning
`requiredKeys` in order (the loop of `load_config`). -/
def firstMissingKey (cfgData : List (Str × Value)) : List Str → Option Str
  | [] => none
  | k :: rest => if dictHasKey cfgData k then firstMissingKey cfgData rest else some k

/-- Model of `load_config` (main.py, lines 8-19), after the external YAML
parse: raise `ValueError` on the first missing required key, otherwise
return the document unchanged. -/
def loadConfig (cfgData : List (Str × Value)) : Except Str (List (Str × Value)) :=
  match firstMissingKey cfgData requiredKeys with
  | some k => .error ("Missing required configuration key: ".toList ++ k)
  | none => .ok cfgData

mutual

/-- A value tree is marker-free when no string in it starts with `ref:` or
`secret:`. -/
def markerFree : Value → Bool
  | .null => true
  | .bool _ => true
  | .num _ => true
  | .str s => !("secret:".toList.isPrefixOf s) && !("ref:".toList.isPrefixOf s)
  | .seq items => markerFreeSeq items
  | .map entries => markerFreeEntries entries

/-- Marker-freedom of every element of a sequence. -/
def markerFreeSeq : List Value → Bool
  | [] => true
  | v :: rest => markerFree v && markerFreeSeq rest

/-- Marker-freedom of every value of a mapping. -/
def markerFreeEntries : List (Str × Value) → Bool
  | [] => true
  | (_, v) :: rest => markerFree v && markerFreeEntries rest

end

/-! ### Helper lemmas -/

theorem isPrefixOf_self (l : List Char) : l.isPrefixOf l = true := by
  induction l with
  | nil => rfl
  | cons c rest ih => simp [List.isPrefixOf, ih]

theorem pyContainsSub_self (l : Str) : pyContainsSub l l = true := by
  cases l with
  | nil => rfl
  | cons c rest => simp [pyContainsSub, isPrefixOf_self]

theorem supportsTags_of_mem {ty : Str} (h : ty ∈ tagSupportingResources) :
    supportsTags ty = true := by
  unfold supportsTags
  rw [List.any_eq_true]
  exact ⟨ty, h, pyContainsSub_self (pyLower ty)⟩

theorem pySplitFirst_append {A : Str} (hA : '.' ∉ A) (rest : Str) :
    pySplitFirst '.' (A ++ '.' :: rest) = some (A, rest) := by
  induction A with
  | nil => simp [pySplitFirst]
  | cons x xs ih =>
    have hx : ¬(x = '.') := fun hxx => hA (hxx ▸ List.mem_cons_self x xs)
    have hxs : '.' ∉ xs := fun hm => hA (List.mem_cons_of_mem _ hm)
    simp [pySplitFirst, hx, ih hxs]

theorem pySplitFirst_eq_none {A : Str} (hA : '.' ∉ A) : pySplitFirst '.' A = none := by
  induction A with
  | nil => rfl
  | cons x xs ih =>
    have hx : ¬(x = '.') := fun hxx => hA (hxx ▸ List.mem_cons_self x xs)
    have hxs : '.' ∉ xs := fun hm => hA (List.mem_cons_of_mem _ hm)
    simp only [pySplitFirst, if_neg hx, ih hxs, Option.map_none']

theorem charOfNat_toNat {n : Nat} (h : n < 123) : (Char.ofNat n).toNat = n := by
  have hv : Nat.isValidChar n := Or.inl (by omega)
  simp only [Char.ofNat, hv, dite_true, dif_pos]
  rfl

theorem charToLower_idem (c : Char) : c.toLower.toLower = c.toLower := by
  show Char.toLower c.toLower = c.toLower
  unfold Char.toLower
  by_cases h : c.toNat ≥ 65 ∧ c.toNat ≤ 90
  · rw [if_pos h]
    have h2 : (Char.ofNat (c.toNat + 32)).toNat = c.toNat + 32 :=
      charOfNat_toNat (by omega)
    rw [h2, if_neg (by omega)]
  · rw [if_neg h, if_neg h]

theorem pyLower_idem (s : Str) : pyLower (pyLower s) = pyLower s := by
  induction s with
  | nil => rfl
  | cons c rest ih => simp [pyLower, charToLower_idem] at ih ⊢

theorem firstMissingKey_eq_none {doc : List (Str × Value)} :
    ∀ {ks : List Str}, firstMissingKey doc ks = none ↔ ∀ k ∈ ks, dictHasKey doc k = true := by
  intro ks
  induction ks with
  | nil => simp [firstMissingKey]
  | cons k rest ih =>
    by_cases h : dictHasKey doc k = true
    · simp [firstMissingKey, h, ih]
    · have h' : dictHasKey doc k = false := by
        cases hb : dictHasKey doc k
        · rfl
        · exact absurd hb h
      simp [firstMissingKey, h']

theorem firstMissingKey_eq_some {doc : List (Str × Value)} :
    ∀ {ks : List Str} {k : Str}, firstMissingKey doc ks = some k →
      k ∈ ks ∧ dictHasKey doc k = false := by
  intro ks
  induction ks with
  | nil => intro k h; exact absurd h (by simp [firstMissingKey])
  | cons k1 rest ih =>
    intro k h
    by_cases h1 : dictHasKey doc k1 = true
    · rw [firstMissingKey, if_pos h1] at h
      obtain ⟨hm, hk⟩ := ih h
      exact ⟨List.mem_cons_of_mem _ hm, hk⟩
    · have h1' : dictHasKey doc k1 = false := by
        cases hb : dictHasKey doc k1
        · rfl
        · exact absurd hb h1
      rw [firstMissingKey, if_neg h1] at h
      injection h with h2
      subst h2
      exact ⟨List.mem_cons_self _ _, h1'⟩

/-! ### Claim theorems -/

/-- C6: `generate_resource_name` composes team-service-environment-region
abbreviation-base name entirely lowercased: the example context
team "Demo", service "example", environment "dev", region "us-east-1"
with base name "vpc-example" yields "demo-example-dev-use1-vpc-example";
the unknown region "foo-bar-1" falls back to the abbreviation "foo"; and
every generated name is already entirely lowercase (lowercasing it again
changes nothing). -/
theorem naming_convention_engine :
    generateResourceName
        ⟨some "Demo".toList, some "example".toList, some "dev".toList,
         some "us-east-1".toList, none, []⟩ "vpc-example".toList =
      "demo-example-dev-use1-vpc-example".toList ∧
    getAbbreviation "foo-bar-1".toList = "foo".toList ∧
    ∀ (cfg : BuilderConfig) (baseName : Str),
      pyLower (generateResourceName cfg baseName) = generateResourceName cfg baseName := by
  refine ⟨by decide, by decide, fun cfg baseName => ?_⟩
  unfold generateResourceName
  exact pyLower_idem _

/-- C7: `_map_resource_type` splits the type tag at the first dot, looks
the service up case-insensitively in `serviceMap` falling back to the
lowercased service itself, and passes the class name through unchanged:
"s3.Bucket" maps to ("s3_bucket", "Bucket"), the unknown service
"foo.Widget" maps to ("foo", "Widget"), and in general a tag
`service.Class` with a dot-free service maps to the table image of the
lowercased service (or the lowercased service itself when absent) paired
with the unchanged class name. -/
theorem resource_type_mapper (svc cls : Str) (hsvc : '.' ∉ svc) :
    mapResourceType "s3.Bucket".toList = ("s3_bucket".toList, "Bucket".toList) ∧
    mapResourceType "foo.Widget".toList = ("foo".toList, "Widget".toList) ∧
    mapResourceType (svc ++ '.' :: cls) =
      ((dictGet serviceMap (pyLower svc)).getD (pyLower svc), cls) := by
  refine ⟨by decide, by decide, ?_⟩
  unfold mapResourceType
  rw [pySplitFirst_append hsvc]
  cases hd : dictGet serviceMap (pyLower svc) <;> simp [hd]

/-- C7 witness: instantiating the general conjunct at the known service
"dynamodb" and class "Table". -/
theorem resource_type_mapper_witness :
    mapResourceType ("dynamodb".toList ++ '.' :: "Table".toList) =
      ((dictGet serviceMap (pyLower "dynamodb".toList)).getD (pyLower "dynamodb".toList),
       "Table".toList) :=
  (resource_type_mapper "dynamodb".toList "Table".toList (by decide)).2.2

/-- C10: a type tag without a dot defaults the service to "ec2", which the
service table itself translates to module "instance", while the whole tag
becomes the class name; so a dotless tag never yields module "ec2". -/
theorem dotless_type_maps_to_instance (t : Str) (ht : '.' ∉ t) :
    mapResourceType t = ("instance".toList, t) := by
  unfold mapResourceType
  rw [pySplitFirst_eq_none ht]
  rfl

/-- C10 witness: the dotless tag "Instance" maps to module "instance" and
class "Instance". -/
theorem dotless_type_maps_to_instance_witness :
    mapResourceType "Instance".toList = ("instance".toList, "Instance".toList) :=
  dotless_type_maps_to_instance "Instance".toList (by decide)

/-- C9: `load_config` fails with the missing-key `ValueError` as soon as
one of team, service, environment, region is absent from the document (so
the stack aborts before any resource is processed), and succeeds, returning
the document unchanged, when all four are present. -/
theorem config_validation (doc : List (Str × Value)) :
    ((∃ k ∈ requiredKeys, dictHasKey doc k = false) →
      ∃ k ∈ requiredKeys, dictHasKey doc k = false ∧
        loadConfig doc = .error ("Missing required configuration key: ".toList ++ k)) ∧
    ((∀ k ∈ requiredKeys, dictHasKey doc k = true) → loadConfig doc = .ok doc) := by
  constructor
  · intro hmiss
    cases hfm : firstMissingKey doc requiredKeys with
    | none =>
      obtain ⟨k, hk, hfalse⟩ := hmiss
      have := firstMissingKey_eq_none.mp hfm k hk
      rw [this] at hfalse
      cases hfalse
    | some k =>
      obtain ⟨hk, hfalse⟩ := firstMissingKey_eq_some hfm
      exact ⟨k, hk, hfalse, by rw [loadConfig, hfm]⟩
  · intro hall
    rw [loadConfig, firstMissingKey_eq_none.mpr hall]

/-- C9 witness: the empty document fails on the first required key, and a
document carrying all four keys loads unchanged. -/
theorem config_validation_witness :
    (∃ k ∈ requiredKeys, dictHasKey ([] : List (Str × Value)) k = false ∧
      loadConfig [] = .error ("Missing required configuration key: ".toList ++ k)) ∧
    loadConfig
        [("team".toList, Value.str "Demo".toList),
         ("service".toList, Value.str "example".toList),
         ("environment".toList, Value.str "dev".toList),
         ("region".toList, Value.str "us-east-1".toList)] =
      .ok
        [("team".toList, Value.str "Demo".toList),
         ("service".toList, Value.str "example".toList),
         ("environment".toList, Value.str "dev".toList),
         ("region".toList, Value.str "us-east-1".toList)] :=
  ⟨(config_validation []).1 ⟨"team".toList, by decide, by decide⟩,
   (config_validation _).2 (by decide)⟩

/-- C3: for a declaration whose type is an entry of the fixed
`tag_supporting_resources` list and a configuration with non-empty tags,
`_apply_common_parameters` injects the context tags under the `tags` key
when the resolved arguments carry no explicit `tags`, and leaves the
arguments entirely unchanged when an explicit `tags` key is present. -/
theorem tag_injection (ty : Str) (hty : ty ∈ tagSupportingResources)
    (cfg : BuilderConfig) (tags : List (Str × Value)) (hcfg : cfg.tags = some tags)
    (hne : tags ≠ []) (args : List (Str × Value)) :
    (dictHasKey args "tags".toList = false →
      applyCommonParameters cfg args ty = args ++ [("tags".toList, Value.map tags)]) ∧
    (dictHasKey args "tags".toList = true →
      applyCommonParameters cfg args ty = args) := by
  have hsupp := supportsTags_of_mem hty
  have hempty : tags.isEmpty = false := by
    cases tags
    · exact absurd rfl hne
    · rfl
  unfold applyCommonParameters dictSetDefault
  rw [hsupp, hcfg]
  simp only [Option.getD_some, hempty, if_true, Bool.false_eq_true, if_false]
  constructor
  · intro h
    rw [h]
    rfl
  · intro h
    rw [h]
    rfl

/-- Reduction of `resolve_value` on a string carrying the `ref:` marker:
the remainder is split at its first dot (default attribute "id") and the
named resource is looked up in the registry. -/
theorem resolveValue_ref (tail : Str) (resources : List (Str × Handle)) :
    resolveValue (.str ("ref:".toList ++ tail)) resources =
      (let parsed :=
        match pySplitFirst '.' tail with
        | some p => p
        | none => (tail, "id".toList)
      match dictGet resources parsed.1 with
      | none =>
        .error ("Referenced resource \x27".toList ++ parsed.1 ++ "\x27 not found.".toList)
      | some h => .ok (handleAttr h parsed.2)) := by
  unfold resolveValue
  have hsec : ("secret:".toList.isPrefixOf ("ref:".toList ++ tail)) = false := rfl
  have href : ("ref:".toList.isPrefixOf ("ref:".toList ++ tail)) = true := by
    rw [ List.isPrefixOf_iff_prefix]
    exact List.prefix_append _ _
  have hdrop : (("ref:".toList ++ tail).drop 4) = tail := rfl
  rw [hsec, href, hdrop]
  simp

/-- Resolution of `ref:A.attr` for a dot-free resource name `A`: registry
lookup of `A`, then attribute access for the whole remainder `attr`. -/
theorem resolve_ref_core (A attr : Str) (hA : '.' ∉ A) (resources : List (Str × Handle)) :
    resolveValue (.str ("ref:".toList ++ A ++ '.' :: attr)) resources =
      (match dictGet resources A with
       | none =>
         Except.error ("Referenced resource \x27".toList ++ A ++ "\x27 not found.".toList)
       | some h => Except.ok (handleAttr h attr)) := by
  have h1 : ("ref:".toList ++ A ++ '.' :: attr) = "ref:".toList ++ (A ++ '.' :: attr) := by
    simp [List.append_assoc]
  rw [h1, resolveValue_ref, pySplitFirst_append hA]

/-- Resolution of `ref:A` for a dot-free resource name `A`: registry
lookup of `A`, then attribute access for the default attribute "id". -/
theorem resolve_ref_nodot (A : Str) (hA : '.' ∉ A) (resources : List (Str × Handle)) :
    resolveValue (.str ("ref:".toList ++ A)) resources =
      (match dictGet resources A with
       | none =>
         Except.error ("Referenced resource \x27".toList ++ A ++ "\x27 not found.".toList)
       | some h => Except.ok (handleAttr h "id".toList)) := by
  rw [resolveValue_ref, pySplitFirst_eq_none hA]

/-- C4: resolving the string `ref:A.attr` against a registry containing
`A` returns exactly the value of attribute `attr` on `A`'s handle (direct
attribute first, generic accessor as fallback), and when `A` is absent
(which covers self-references and forward references, since the registry
only holds previously processed declarations) it fails with the
reference-not-found error; it fails exactly when `A` is absent. -/
theorem ref_attribute_resolution (A attr : Str) (hA : '.' ∉ A)
    (resources : List (Str × Handle)) :
    (∀ h, dictGet resources A = some h →
      resolveValue (.str ("ref:".toList ++ A ++ '.' :: attr)) resources =
        .ok (handleAttr h attr)) ∧
    (dictGet resources A = none →
      resolveValue (.str ("ref:".toList ++ A ++ '.' :: attr)) resources =
        .error ("Referenced resource \x27".toList ++ A ++ "\x27 not found.".toList)) := by
  constructor
  · intro h hh
    rw [resolve_ref_core A attr hA, hh]
  · intro hh
    rw [resolve_ref_core A attr hA, hh]

/-- A sample registered handle used to instantiate the resolver claims. -/
def vpcHandle : Handle :=
  ⟨[("id".toList, Value.str "vpc-123".toList),
    ("arn".toList, Value.str "arn-vpc-123".toList)], fun _ => Value.null⟩

/-- C4 witness: `ref:vpc-example.arn` resolves to the handle's `arn`
attribute when `vpc-example` is registered, and `ref:missing.id` fails
with the reference-not-found error on the empty registry. -/
theorem ref_attribute_resolution_witness :
    resolveValue (.str ("ref:".toList ++ "vpc-example".toList ++ '.' :: "arn".toList))
        [("vpc-example".toList, vpcHandle)] = .ok (handleAttr vpcHandle "arn".toList) ∧
    resolveValue (.str ("ref:".toList ++ "missing".toList ++ '.' :: "id".toList)) [] =
      .error ("Referenced resource \x27".toList ++ "missing".toList ++
        "\x27 not found.".toList) :=
  ⟨(ref_attribute_resolution "vpc-example".toList "arn".toList (by decide)
      [("vpc-example".toList, vpcHandle)]).1 vpcHandle rfl,
   (ref_attribute_resolution "missing".toList "id".toList (by decide) []).2 rfl⟩

/-- C5: for a dot-free resource name `A`, resolving `ref:A` is the same as
resolving `ref:A.id` against any registry (the default attribute is "id"),
and only the first dot of the remainder separates the resource name from
the attribute: an attribute of the shape `head.tail` is passed whole to
the handle's attribute access. -/
theorem ref_default_attribute (A : Str) (hA : '.' ∉ A)
    (resources : List (Str × Handle)) :
    resolveValue (.str ("ref:".toList ++ A)) resources =
      resolveValue (.str ("ref:".toList ++ A ++ ".id".toList)) resources ∧
    (∀ attrHead attrTail : Str, ∀ h, dictGet resources A = some h →
      resolveValue
          (.str ("ref:".toList ++ A ++ '.' :: (attrHead ++ '.' :: attrTail))) resources =
        .ok (handleAttr h (attrHead ++ '.' :: attrTail))) := by
  constructor
  · rw [resolve_ref_nodot A hA]
    have hid : ".id".toList = '.' :: "id".toList := rfl
    rw [hid, resolve_ref_core A "id".toList hA]
  · intro attrHead attrTail h hh
    rw [resolve_ref_core A (attrHead ++ '.' :: attrTail) hA, hh]

/-- C5 witness: `ref:db` and `ref:db.id` resolve identically against a
one-entry registry, and the dotted attribute `meta.version` is looked up
whole on the handle. -/
theorem ref_default_attribute_witness :
    resolveValue (.str ("ref:".toList ++ "db".toList)) [("db".toList, vpcHandle)] =
      resolveValue (.str ("ref:".toList ++ "db".toList ++ ".id".toList))
        [("db".toList, vpcHandle)] ∧
    resolveValue
        (.str ("ref:".toList ++ "db".toList ++ '.' ::
          ("meta".toList ++ '.' :: "version".toList)))
        [("db".toList, vpcHandle)] =
      .ok (handleAttr vpcHandle ("meta".toList ++ '.' :: "version".toList)) :=
  ⟨(ref_default_attribute "db".toList (by decide) [("db".toList, vpcHandle)]).1,
   (ref_default_attribute "db".toList (by decide) [("db".toList, vpcHandle)]).2
     "meta".toList "version".toList vpcHandle rfl⟩

mutual

/-- No-op of the resolver on a marker-free value, by mutual structural
induction with the sequence and mapping cases. -/
theorem resolveNoopVal : (v : Value) → markerFree v = true →
    (resources : List (Str × Handle)) → resolveValue v resources = .ok v
  | .null, _, _ => rfl
  | .bool _, _, _ => rfl
  | .num _, _, _ => rfl
  | .str s, h, resources => by
    unfold markerFree at h
    obtain ⟨h1, h2⟩ := Bool.and_eq_true_iff.mp h
    rw [Bool.not_eq_true'] at h1 h2
    unfold resolveValue
    rw [h1, h2]
    simp
  | .seq items, h, resources => by
    unfold markerFree at h
    unfold resolveValue
    rw [resolveNoopSeq items h resources]
  | .map entries, h, resources => by
    unfold markerFree at h
    unfold resolveValue
    rw [resolveNoopEntries entries h resources]

/-- No-op of the resolver on a marker-free sequence. -/
theorem resolveNoopSeq : (l : List Value) → markerFreeSeq l = true →
    (resources : List (Str × Handle)) → resolveSeq l resources = .ok l
  | [], _, _ => rfl
  | v :: rest, h, resources => by
    unfold markerFreeSeq at h
    obtain ⟨h1, h2⟩ := Bool.and_eq_true_iff.mp h
    unfold resolveSeq
    rw [resolveNoopVal v h1 resources, resolveNoopSeq rest h2 resources]

/-- No-op of the resolver on a mapping with marker-free values. -/
theorem resolveNoopEntries : (l : List (Str × Value)) → markerFreeEntries l = true →
    (resources : List (Str × Handle)) → resolveEntries l resources = .ok l
  | [], _, _ => rfl
  | (k, v) :: rest, h, resources => by
    unfold markerFreeEntries at h
    obtain ⟨h1, h2⟩ := Bool.and_eq_true_iff.mp h
    unfold resolveEntries
    rw [resolveNoopVal v h1 resources, resolveNoopEntries rest h2 resources]

end

/-- C8: on an argument tree none of whose strings start with `ref:` or
`secret:`, the resolver returns its input unchanged, whatever the
registry. -/
theorem resolver_noop_on_marker_free (v : Value) (h : markerFree v = true)
    (resources : List (Str × Handle)) : resolveValue v resources = .ok v :=
  resolveNoopVal v h resources

/-- A marker-free argument tree exercising mappings, sequences and all
scalar shapes. -/
def markerFreeTree : Value :=
  .map
    [("cidr_block".toList, .str "10.0.0.0/16".toList),
     ("tags".toList, .map [("Name".toList, .str "example-vpc".toList)]),
     ("count".toList, .num 2),
     ("flags".toList, .seq [.bool true, .null, .str "plain".toList])]

/-- C8 witness: the sample marker-free tree is returned unchanged by the
resolver on the empty registry. -/
theorem resolver_noop_witness :
    markerFree markerFreeTree = true ∧
    resolveValue markerFreeTree [] = .ok markerFreeTree :=
  ⟨rfl, resolver_noop_on_marker_free markerFreeTree rfl []⟩

/-- C3 witness: for the tag-capable type "s3_bucket.s3bucket" and context
tags Owner ↦ x, empty arguments receive the injected tags, while arguments
already carrying tags Team ↦ y are preserved unchanged. -/
theorem tag_injection_witness :
    applyCommonParameters
        ⟨none, none, none, none, some [("Owner".toList, Value.str "x".toList)], []⟩
        [] "s3_bucket.s3bucket".toList =
      [("tags".toList, Value.map [("Owner".toList, Value.str "x".toList)])] ∧
    applyCommonParameters
        ⟨none, none, none, none, some [("Owner".toList, Value.str "x".toList)], []⟩
        [("tags".toList, Value.map [("Team".toList, Value.str "y".toList)])]
        "s3_bucket.s3bucket".toList =
      [("tags".toList, Value.map [("Team".toList, Value.str "y".toList)])] := by
  constructor
  · have := (tag_injection "s3_bucket.s3bucket".toList (by decide)
      ⟨none, none, none, none, some [("Owner".toList, Value.str "x".toList)], []⟩
      [("Owner".toList, Value.str "x".toList)] rfl (List.cons_ne_nil _ _) []).1 (by decide)
    simpa using this
  · exact (tag_injection "s3_bucket.s3bucket".toList (by decide)
      ⟨none, none, none, none, some [("Owner".toList, Value.str "x".toList)], []⟩
      [("Owner".toList, Value.str "x".toList)] rfl (List.cons_ne_nil _ _)
      [("tags".toList, Value.map [("Team".toList, Value.str "y".toList)])]).2 (by decide)

/-! ### Concrete build scenarios for the orchestrator claims -/

/-- A backend handle exposing a direct `id` attribute. -/
def handleWithId : Handle :=
  ⟨[("id".toList, Value.str "resource-id".toList)], fun _ => Value.null⟩

/-- A backend on which every module/class pair imports successfully. -/
def backendAll : Backend :=
  ⟨fun _ _ => true, fun _ _ => true,
   fun _ _ _ _ => handleWithId, fun _ _ _ _ => handleWithId⟩

/-- A backend on which module "foo" fails to import (the
ImportError/AttributeError case of the per-declaration try block). -/
def backendNoFoo : Backend :=
  ⟨fun m _ => !(m == "foo".toList), fun m _ => !(m == "foo".toList),
   fun _ _ _ _ => handleWithId, fun _ _ _ _ => handleWithId⟩

/-- First declaration of the three-declaration scenarios. -/
def declOne : Decl :=
  ⟨"one".toList, "s3.Bucket".toList, [("bucket".toList, Value.str "b-one".toList)], none⟩

/-- Second declaration, carrying a `ref:` to a name never registered. -/
def declTwoBadRef : Decl :=
  ⟨"two".toList, "s3.Bucket".toList,
   [("bucket".toList, Value.str "ref:nonexistent".toList)], none⟩

/-- Second declaration, of a type whose module fails to import. -/
def declTwoBadType : Decl := ⟨"two".toList, "foo.Widget".toList, [], none⟩

/-- Third declaration of the three-declaration scenarios. -/
def declThree : Decl :=
  ⟨"three".toList, "s3.Bucket".toList,
   [("bucket".toList, Value.str "b-three".toList)], none⟩

/-- Three declarations where the second references a nonexistent
resource (the scenario of the partial-failure claim). -/
def cfgBadRef : BuilderConfig :=
  ⟨some "Demo".toList, some "example".toList, some "dev".toList,
   some "us-east-1".toList, none, [declOne, declTwoBadRef, declThree]⟩

/-- Three declarations where the second has an unimportable type. -/
def cfgBadType : BuilderConfig :=
  ⟨some "Demo".toList, some "example".toList, some "dev".toList,
   some "us-east-1".toList, none, [declOne, declTwoBadType, declThree]⟩

/-- C1 counterexample: with three declarations where the second holds a
`ref:` to a resource absent from the registry, `build` does not skip the
second declaration and continue — `resolve_args` runs outside the try
block and `ValueError` is not in the caught exception tuple, so the whole
build aborts with the uncaught reference error and no output set is
produced at all (in particular, no entries for declarations one and
three). -/
theorem ref_failure_aborts_build :
    buildModel backendAll cfgBadRef =
      .error ("Referenced resource \x27nonexistent\x27 not found.".toList) := rfl

/-- C1 amended: failures actually caught at the per-declaration boundary
are the import/attribute errors of backend type lookup; for those,
isolation holds — with three declarations where the second's module fails
to import, declarations one and three are materialized and registered, two
is skipped with the logged creation error, and the output set contains
entries for one and three only — whereas a `ref:` to an absent resource
aborts the whole build with an uncaught error. -/
theorem import_failure_is_isolated :
    (buildModel backendNoFoo cfgBadType).map
        (fun r =>
          (r.resources.map Prod.fst, r.calls.map BackendCall.constructId,
           r.errors, r.outputs)) =
      .ok
        (["one".toList, "three".toList],
         ["one".toList, "three".toList],
         [errCreating "two".toList "foo.Widget".toList],
         ["output_one".toList, "output_three".toList]) ∧
    buildModel backendAll cfgBadRef =
      .error ("Referenced resource \x27nonexistent\x27 not found.".toList) :=
  ⟨rfl, rfl⟩

/-- The single declaration of the identifier scenario. -/
def declVpc : Decl :=
  ⟨"vpc-example".toList, "vpc.Vpc".toList,
   [("cidr_block".toList, Value.str "10.0.0.0/16".toList)], none⟩

/-- A configuration holding only `declVpc`, under the example
organizational context. -/
def cfgVpc : BuilderConfig :=
  ⟨some "Demo".toList, some "example".toList, some "dev".toList,
   some "us-east-1".toList, none, [declVpc]⟩

/-- C2 counterexample: building the single declaration "vpc-example"
(no customName) makes exactly one backend call whose identifier argument
is the raw declaration name "vpc-example", while the Naming Convention
Engine's name "demo-example-dev-use1-vpc-example" appears only as the
logged name — the two differ, so the generated name is not the identifier
passed to the backend materialization call. -/
theorem backend_gets_declaration_name :
    (buildModel backendAll cfgVpc).map
        (fun r => r.calls.map (fun c => (c.constructId, c.loggedName))) =
      .ok [("vpc-example".toList, "demo-example-dev-use1-vpc-example".toList)] ∧
    ("vpc-example".toList : Str) ≠ "demo-example-dev-use1-vpc-example".toList :=
  ⟨rfl, by decide⟩

/-- C2 amended: for every declaration that `build` materializes, the
identifier passed to the backend constructor is the declaration's raw
`name`; the Naming Convention Engine's generated name — or `customName`
when set and non-empty — is only the `terraform_name` used in the log
message; and the resulting handle is registered under the declaration's
`name`. -/
theorem materialization_identifier (be : Backend) (cfg : BuilderConfig)
    (resources : List (Str × Handle)) (d : Decl) (call : BackendCall) (h : Handle)
    (hp : processDecl be cfg resources d = .ok (.made call h)) :
    call.constructId = d.name ∧ call.loggedName = terraformNameOf cfg d ∧
    ∀ (st : BuildState) (rest : List Decl), st.resources = resources →
      buildDecls be cfg (d :: rest) st =
        buildDecls be cfg rest
          ⟨dictInsert st.resources d.name h, st.calls ++ [call], st.errors⟩ := by
  have hfields : call.constructId = d.name ∧ call.loggedName = terraformNameOf cfg d := by
    have hp' := hp
    unfold processDecl at hp'
    dsimp only at hp'
    split at hp'
    · exact Except.noConfusion hp'
    · split at hp'
      · split at hp'
        · split at hp'
          · injection hp' with hstep
            injection hstep with hcall hh
            subst hcall
            exact ⟨rfl, rfl⟩
          · injection hp' with hstep
            exact StepOutcome.noConfusion hstep
        · injection hp' with hstep
          injection hstep with hcall hh
          subst hcall
          exact ⟨rfl, rfl⟩
      · injection hp' with hstep
        exact StepOutcome.noConfusion hstep
  refine ⟨hfields.1, hfields.2, ?_⟩
  intro st rest hst
  conv_lhs => rw [buildDecls]
  rw [hst, hp]

/-- C2 witness: processing `declVpc` materializes it with identifier
"vpc-example" and logged name "demo-example-dev-use1-vpc-example". -/
theorem materialization_identifier_witness :
    BackendCall.constructId
        ⟨"vpc".toList, "Vpc".toList, "vpc-example".toList,
         [("cidr_block".toList, Value.str "10.0.0.0/16".toList)], false,
         "demo-example-dev-use1-vpc-example".toList⟩ = declVpc.name ∧
    BackendCall.loggedName
        ⟨"vpc".toList, "Vpc".toList, "vpc-example".toList,
         [("cidr_block".toList, Value.str "10.0.0.0/16".toList)], false,
         "demo-example-dev-use1-vpc-example".toList⟩ = terraformNameOf cfgVpc declVpc :=
  ⟨(materialization_identifier backendAll cfgVpc [] declVpc _ handleWithId rfl).1,
   (materialization_identifier backendAll cfgVpc [] declVpc _ handleWithId rfl).2.1⟩

end TfCdk
